import Mathlib

/-!
Verification of the pod-security-admission policy check framework.

The definitions below are a shallow embedding of the Go sources of the
`policy` package: the lazy field-path builder (`PathFn`), the deferred
field-error constructors (`forbidden`, `required`, `ErrFn.withBadValue`),
the `Violations` accumulator, the shared container traversal
(`visitContainers`) and the check evaluation functions
(`procMountV1Dot0`, `hostPortsV1Dot0`, `privilegedV1Dot0`,
`appArmorProfileV1Dot0`, `seLinuxOptionsV1Dot0`).

Go idioms are translated as follows: pointer-typed optional values become
`Option`; a nil-able Go function value of type `func() *T` becomes
`Option (Unit → Option T)`; in-place mutation of a local accumulator
becomes explicit state passing through folds; a Go `map[string]string`
becomes an association list whose order models the (unspecified) map
iteration order; the process-wide relaxation toggle becomes an explicit
boolean parameter.  External k8s.io library types used by the package
(`field.Path`, `field.Error`, `sets.String`) are embedded from their
documented behavior.
-/

namespace policy

/-! ## Embedding of k8s.io/apimachinery `field.Path` -/

/-- Element of a field path: either a named field segment or a
subscript (index or map key) segment, mirroring `field.Path`'s
`name`/`index` fields. -/
inductive PathElem where
  | name (s : String)
  | index (s : String)
deriving DecidableEq

/-- Embedding of `field.Path`: the chain of elements from root to leaf. -/
abbrev Path := List PathElem

/-- Embedding of `field.NewPath(name, moreNames...)`. -/
def Path.NewPath (name : String) (moreNames : List String) : Path :=
  PathElem.name name :: moreNames.map PathElem.name

/-- Embedding of `(*field.Path).Child(name, moreNames...)`. -/
def Path.Child (p : Path) (name : String) (moreNames : List String) : Path :=
  p ++ (PathElem.name name :: moreNames.map PathElem.name)

/-- Embedding of `(*field.Path).Index(i)` (subscript by `strconv.Itoa(i)`). -/
def Path.Index (p : Path) (i : Nat) : Path :=
  p ++ [PathElem.index (toString i)]

/-- Embedding of `(*field.Path).Key(key)` (subscript by a map key). -/
def Path.Key (p : Path) (k : String) : Path :=
  p ++ [PathElem.index k]

/-- Embedding of `(*field.Path).String()`: named segments are joined with
dots (no dot before the root) and subscripts are wrapped in brackets. -/
def Path.render (p : Path) : String :=
  p.foldl
    (fun acc e =>
      match e with
      | PathElem.name s => if acc.isEmpty then s else acc ++ "." ++ s
      | PathElem.index s => acc ++ "[" ++ s ++ "]")
    ""

/-! ## Embedding of k8s.io/apimachinery `field.Error` -/

/-- Error type tags of the `field.Error` values produced by this package:
`field.ErrorTypeForbidden` and `field.ErrorTypeRequired`. -/
inductive ErrType where
  | fieldValueForbidden
  | fieldValueRequired
deriving DecidableEq

/-- Bad values attached to field errors by this package: Go passes
`interface{}` holding a string, an int, or a bool. -/
inductive BadValue where
  | str (s : String)
  | int (i : Int)
  | bool (b : Bool)
deriving DecidableEq

/-- Embedding of `field.Error` (the fields compared by the package's
tests: Type, Field, BadValue, Detail). -/
structure FieldError where
  type_ : ErrType
  field : String
  badValue : BadValue
  detail : String
deriving DecidableEq

/-- Embedding of `field.Forbidden(path, detail)`: a Forbidden error whose
Field is the rendered path and whose BadValue is the empty string. -/
def FieldError.Forbidden (path : Path) (detail : String) : FieldError :=
  { type_ := ErrType.fieldValueForbidden
    field := Path.render path
    badValue := BadValue.str ""
    detail := detail }

/-- Embedding of `field.Required(path, detail)`. -/
def FieldError.Required (path : Path) (detail : String) : FieldError :=
  { type_ := ErrType.fieldValueRequired
    field := Path.render path
    badValue := BadValue.str ""
    detail := detail }

/-! ## Lexicographic string order (Go `sort.Strings`) -/

/-- Lexicographic comparison of character lists by code point, the order
used by Go's `sort.Strings` and `sets.String.List` on the ASCII strings
this package sorts.  Defined directly so that it reduces in the kernel
(the core `String` order does not). -/
def strLe : List Char → List Char → Bool
  | [], _ => true
  | _ :: _, [] => false
  | c :: cs, d :: ds => c.toNat < d.toNat || (c == d && strLe cs ds)

/-- Embedding of `sort.Strings`: sort a list of strings ascending. -/
def sortStrings (l : List String) : List String :=
  List.insertionSort (fun a b => strLe a.data b.data = true) l

/-! ## Embedding of k8s.io/apimachinery `sets.String` -/

/-- Embedding of `sets.String`: a set of strings.  The list holds the
distinct elements in insertion order; all observations made by the
package (`Has`, `Len`, sorted `List`) are order-independent. -/
abbrev StringSet := List String

/-- Embedding of `sets.NewString(items...)`. -/
def StringSet.NewString (items : List String) : StringSet :=
  items.foldl (fun s x => if s.contains x then s else s ++ [x]) []

/-- Embedding of `sets.String.Insert`. -/
def StringSet.insert (s : StringSet) (x : String) : StringSet :=
  if s.contains x then s else s ++ [x]

/-- Embedding of `sets.String.Has`. -/
def StringSet.Has (s : StringSet) (x : String) : Bool :=
  s.contains x

/-- Embedding of `sets.String.List`: the elements sorted ascending. -/
def StringSet.sortedList (s : StringSet) : List String :=
  sortStrings s

/-! ## Pod data model (the fields of `corev1` types read by the checks) -/

/-- Embedding of `corev1.SELinuxOptions` (field `Type` is `type_`). -/
structure SELinuxOptions where
  user : String := ""
  role : String := ""
  type_ : String := ""
  level : String := ""
deriving DecidableEq

/-- Embedding of `corev1.ContainerPort` (only `HostPort` is read). -/
structure ContainerPort where
  hostPort : Int := 0
deriving DecidableEq

/-- Embedding of `corev1.SecurityContext` (the fields read by the
checks under verification). -/
structure SecurityContext where
  privileged : Option Bool := none
  procMount : Option String := none
  seLinuxOptions : Option SELinuxOptions := none
deriving DecidableEq

/-- Embedding of `corev1.Container`; `corev1.EphemeralContainer` is
represented by its `EphemeralContainerCommon`, which the traversal casts
to `Container`. -/
structure Container where
  name : String := ""
  securityContext : Option SecurityContext := none
  ports : List ContainerPort := []
deriving DecidableEq

/-- Embedding of `corev1.PodSecurityContext` (only `SELinuxOptions` is
read by the checks under verification). -/
structure PodSecurityContext where
  seLinuxOptions : Option SELinuxOptions := none
deriving DecidableEq

/-- Embedding of `corev1.PodSpec` (the fields read by the checks). -/
structure PodSpec where
  securityContext : Option PodSecurityContext := none
  initContainers : List Container := []
  containers : List Container := []
  ephemeralContainers : List Container := []
  hostUsers : Option Bool := none
deriving DecidableEq

/-- Embedding of `metav1.ObjectMeta` (only `Annotations` is read).  The
Go field is a `map[string]string`; the association list records the
entries in one particular iteration order, which Go deliberately leaves
unspecified, so facts that must hold of the map itself are stated for
every permutation of the list. -/
structure ObjectMeta where
  annotations : List (String × String) := []
deriving DecidableEq

/-- Embedding of `corev1.DefaultProcMount` (`"Default"`). -/
def DefaultProcMount : String := "Default"

/-- Embedding of `corev1.UnmaskedProcMount` (`"Unmasked"`). -/
def UnmaskedProcMount : String := "Unmasked"

/-- Embedding of `corev1.AppArmorBetaContainerAnnotationKeyPrefix`. -/
def appArmorBetaContainerAnnotationKeyPfx : String :=
  "container.apparmor.security.beta.kubernetes.io/"

/-- Embedding of `corev1.AppArmorBetaProfileRuntimeDefault`. -/
def appArmorBetaProfileRuntimeDefault : String := "runtime/default"

/-- Embedding of `corev1.AppArmorBetaProfileNamePrefix` (`"localhost/"`). -/
def appArmorBetaProfileNamePfx : String := "localhost/"

/-! ## Framework types -/

/-- Modelled from the spec: the per-call `options` struct is not under
src/; §3 gives its one recognized field `withFieldErrors: bool`. -/
structure options where
  withFieldErrors : Bool := false
deriving DecidableEq

/-- Modelled from the spec: the `CheckResult` struct definition is not
under src/; §3 gives its fields `Allowed bool`, `ForbiddenReason string`,
`ForbiddenDetail string`, `ErrList *FieldErrorList`.  Defaults are the Go
zero values, so `CheckResult{Allowed: true}` is `{ Allowed := true }`. -/
structure CheckResult where
  Allowed : Bool := false
  ForbiddenReason : String := ""
  ForbiddenDetail : String := ""
  ErrList : Option (List FieldError) := none
deriving DecidableEq

/-- Modelled from the spec: `pluralize` is not under src/; per §4.4 the
noun is "pluralized by offender count", choosing the singular form
exactly when the count is 1 (matching every expected test string). -/
def pluralize (singular plural : String) (count : Nat) : String :=
  if count == 1 then singular else plural

/-- Go `%q` quoting of the plain ASCII strings this package quotes. -/
def quoteStr (s : String) : String := "\"" ++ s ++ "\""

/-- Modelled from the spec: `joinQuote` is not under src/; per §4.4 and
the test strings, values are individually quoted and comma-joined. -/
def joinQuote (items : List String) : String :=
  String.intercalate ", " (items.map quoteStr)

/-! ## PathFn — lazy field path builder (src/unnamed/part_004) -/

/-- Embedding of `type PathFn func() *field.Path`: `none` is the nil
function value, `some f` a non-nil function whose call is `f ()`. -/
abbrev PathFn := Option (Unit → Option Path)

/-- Embedding of `withPath`. -/
def withPath (path : Option Path) : PathFn :=
  match path with
  | none => none
  | some p => some (fun _ => some p)

/-- Embedding of `PathFn.index`. -/
def PathFn.index (parent : PathFn) (i : Nat) : PathFn :=
  match parent with
  | none => none
  | some f =>
    some (fun u =>
      match f u with
      | none => none
      | some p => some (Path.Index p i))

/-- Embedding of `PathFn.child`. -/
def PathFn.child (parent : PathFn) (name : String) (moreNames : List String) : PathFn :=
  match parent with
  | none => none
  | some f =>
    some (fun u =>
      match f u with
      | none => none
      | some p => some (Path.Child p name moreNames))

/-- Embedding of `PathFn.key`. -/
def PathFn.key (parent : PathFn) (k : String) : PathFn :=
  match parent with
  | none => none
  | some f =>
    some (fun u =>
      match f u with
      | none => none
      | some p => some (Path.Key p k))

/-- Embedding of the package-level path variable `annotationsPath`. -/
def annotationsPath : PathFn := withPath (some (Path.NewPath "metadata" ["annotations"]))

/-- Embedding of the package-level path variable `specPath`. -/
def specPath : PathFn := withPath (some (Path.NewPath "spec" []))

/-- Embedding of `initContainersFldPath`. -/
def initContainersFldPath : PathFn := PathFn.child specPath "initContainers" []

/-- Embedding of `containersFldPath`. -/
def containersFldPath : PathFn := PathFn.child specPath "containers" []

/-- Embedding of `ephemeralContainersFldPath`. -/
def ephemeralContainersFldPath : PathFn := PathFn.child specPath "ephemeralContainers" []

/-- Embedding of `securityContextPath`. -/
def securityContextPath : PathFn := PathFn.child specPath "securityContext" []

/-- Embedding of `seLinuxOptionsTypePath`. -/
def seLinuxOptionsTypePath : PathFn := PathFn.child securityContextPath "seLinuxOptions" ["type"]

/-- Embedding of `seLinuxOptionsUserPath`. -/
def seLinuxOptionsUserPath : PathFn := PathFn.child securityContextPath "seLinuxOptions" ["user"]

/-- Embedding of `seLinuxOptionsRolePath`. -/
def seLinuxOptionsRolePath : PathFn := PathFn.child securityContextPath "seLinuxOptions" ["role"]

/-! ## Violations accumulator and deferred errors (src/unnamed/part_002) -/

/-- Embedding of `type ErrFn func() *field.Error`: `none` is the nil
function value. -/
abbrev ErrFn := Option (Unit → Option FieldError)

/-- Embedding of the `Violations` struct. -/
structure Violations where
  data : List String := []
  errs : Option (List FieldError) := none
  withFieldErrors : Bool := false

/-- Embedding of `NewViolations(withFieldErrors)`: the structured list is
allocated only when `withFieldErrors` is true. -/
def NewViolations (withFieldErrors : Bool) : Violations :=
  let violations : Violations := { withFieldErrors := withFieldErrors }
  if withFieldErrors then { violations with errs := some [] } else violations

/-- Embedding of `(*Violations).Add(data, errFns...)`: appends the label
always; evaluates the error functions and appends their non-nil results
only when `withFieldErrors` was set at construction. -/
def Violations.Add (v : Violations) (data : String) (errFns : List ErrFn) : Violations :=
  let v := { v with data := v.data ++ [data] }
  if v.withFieldErrors then
    errFns.foldl
      (fun v errFn =>
        match errFn with
        | none => v
        | some f =>
          match f () with
          | none => v
          | some err => { v with errs := v.errs.map (fun es => es ++ [err]) })
      v
  else v

/-- Embedding of `(*Violations).Empty()`. -/
def Violations.Empty (v : Violations) : Bool := v.data.length == 0

/-- Embedding of `(*Violations).Data()`. -/
def Violations.Data (v : Violations) : List String := v.data

/-- Embedding of `(*Violations).Len()`. -/
def Violations.Len (v : Violations) : Nat := v.data.length

/-- Embedding of `(*Violations).Errs()`. -/
def Violations.Errs (v : Violations) : Option (List FieldError) := v.errs

/-- Embedding of `(ErrFn).withBadValue(badValue)`: nil stays nil; a
non-nil function's non-nil result gets its BadValue replaced. -/
def ErrFn.withBadValue (f : ErrFn) (badValue : BadValue) : ErrFn :=
  match f with
  | none => none
  | some g =>
    some (fun u =>
      match g u with
      | none => none
      | some err => some { err with badValue := badValue })

/-- Embedding of `forbidden(pathFn)`. -/
def forbidden (pathFn : PathFn) : ErrFn :=
  match pathFn with
  | none => none
  | some pf =>
    some (fun u =>
      match pf u with
      | none => none
      | some path => some (FieldError.Forbidden path ""))

/-- Embedding of `required(pathFn)`. -/
def required (pathFn : PathFn) : ErrFn :=
  match pathFn with
  | none => none
  | some pf =>
    some (fun u =>
      match pf u with
      | none => none
      | some path => some (FieldError.Required path ""))

/-! ## Shared container traversal (src/unnamed/part_000) -/

/-- Embedding of `visitContainers(podSpec, opts, visitor)`: the visitor
runs once per init container (in index order), then once per regular
container, then once per ephemeral container; it receives the indexed
field path only when `opts.withFieldErrors` is set and the nil `PathFn`
otherwise.  The Go visitor mutates captured state, embedded here as a
fold over an explicit accumulator. -/
def visitContainers {α : Type} (podSpec : PodSpec) (opts : options)
    (visitor : Container → PathFn → α → α) (a0 : α) : α :=
  let a1 := podSpec.initContainers.enum.foldl
    (fun acc ic =>
      visitor ic.2 (if opts.withFieldErrors then PathFn.index initContainersFldPath ic.1 else none) acc)
    a0
  let a2 := podSpec.containers.enum.foldl
    (fun acc ic =>
      visitor ic.2 (if opts.withFieldErrors then PathFn.index containersFldPath ic.1 else none) acc)
    a1
  podSpec.ephemeralContainers.enum.foldl
    (fun acc ic =>
      visitor ic.2 (if opts.withFieldErrors then PathFn.index ephemeralContainersFldPath ic.1 else none) acc)
    a2

/-- The visit sequence of a traversal: each container paired with the
path function the visitor receives, init containers first, then regular,
then ephemeral, each collection in index order. -/
def visitSeq (podSpec : PodSpec) (opts : options) : List (Container × PathFn) :=
  podSpec.initContainers.enum.map
    (fun ic => (ic.2, if opts.withFieldErrors then PathFn.index initContainersFldPath ic.1 else none)) ++
  podSpec.containers.enum.map
    (fun ic => (ic.2, if opts.withFieldErrors then PathFn.index containersFldPath ic.1 else none)) ++
  podSpec.ephemeralContainers.enum.map
    (fun ic => (ic.2, if opts.withFieldErrors then PathFn.index ephemeralContainersFldPath ic.1 else none))

/-! ## Check: appArmorProfile (src/policy/check_appArmorProfile.go) -/

/-- Embedding of `strings.HasPrefix(s, pre)`, by character-list
comparison so that it reduces in the kernel (the core
`String.startsWith` does not). -/
def strHasPfx (s pre : String) : Bool :=
  pre.data.isPrefixOf s.data

/-- Embedding of `allowedProfile(profile)`. -/
def allowedProfile (profile : String) : Bool :=
  profile.length == 0 ||
    profile == appArmorBetaProfileRuntimeDefault ||
    strHasPfx profile appArmorBetaProfileNamePfx

/-- Loop body of `appArmorProfileV1Dot0`'s `for k, v := range
podMetadata.Annotations`, with the mutated `forbiddenAppArmorProfile`
accumulator passed explicitly. -/
def appArmorVisitAnno (opts : options) (forbiddenAppArmorProfile : Violations)
    (kv : String × String) : Violations :=
  if strHasPfx kv.1 appArmorBetaContainerAnnotationKeyPfx && !allowedProfile kv.2 then
    if opts.withFieldErrors then
      Violations.Add forbiddenAppArmorProfile (kv.1 ++ "=" ++ quoteStr kv.2)
        [ErrFn.withBadValue (forbidden (PathFn.key annotationsPath kv.1)) (BadValue.str kv.2)]
    else
      Violations.Add forbiddenAppArmorProfile (kv.1 ++ "=" ++ quoteStr kv.2) []
  else forbiddenAppArmorProfile

/-- Label recorded by `appArmorProfileV1Dot0` for one annotation entry,
when that entry is a forbidden AppArmor profile annotation. -/
def appArmorLabelOf (kv : String × String) : Option String :=
  if strHasPfx kv.1 appArmorBetaContainerAnnotationKeyPfx && !allowedProfile kv.2 then
    some (kv.1 ++ "=" ++ quoteStr kv.2)
  else none

/-- Value of the deferred structured error built by
`appArmorProfileV1Dot0` for one forbidden annotation entry. -/
def appArmorErrVal (kv : String × String) : FieldError :=
  { type_ := ErrType.fieldValueForbidden
    field := Path.render (Path.Key (Path.NewPath "metadata" ["annotations"]) kv.1)
    badValue := BadValue.str kv.2
    detail := "" }

/-- Structured error recorded by `appArmorProfileV1Dot0` for one
annotation entry (when field errors are enabled), when that entry is a
forbidden AppArmor profile annotation. -/
def appArmorErrOf (kv : String × String) : Option FieldError :=
  if strHasPfx kv.1 appArmorBetaContainerAnnotationKeyPfx && !allowedProfile kv.2 then
    some (appArmorErrVal kv)
  else none

/-- Embedding of `appArmorProfileV1Dot0`. -/
def appArmorProfileV1Dot0 (podMetadata : ObjectMeta) (podSpec : PodSpec)
    (opts : options) : CheckResult :=
  let forbiddenAppArmorProfile :=
    podMetadata.annotations.foldl (appArmorVisitAnno opts) (NewViolations opts.withFieldErrors)
  if !(Violations.Empty forbiddenAppArmorProfile) then
    let forbiddenValues := sortStrings (Violations.Data forbiddenAppArmorProfile)
    { Allowed := false
      ForbiddenReason :=
        pluralize "forbidden AppArmor profile" "forbidden AppArmor profiles" forbiddenValues.length
      ForbiddenDetail := String.intercalate ", " forbiddenValues
      ErrList := Violations.Errs forbiddenAppArmorProfile }
  else { Allowed := true }

/-! ## Check: procMount (src/unnamed/part_003, first variant) -/

/-- Visitor closure of `procMountV1Dot0`, with the captured
`badContainers` and `forbiddenProcMountTypes` accumulators passed as an
explicit pair. -/
def procMountVisit (opts : options) (container : Container) (pathFn : PathFn)
    (st : Violations × StringSet) : Violations × StringSet :=
  match container.securityContext with
  | none => st
  | some sc =>
    match sc.procMount with
    | none => st
    | some procMount =>
      if procMount != DefaultProcMount then
        (if opts.withFieldErrors then
          Violations.Add st.1 container.name
            [ErrFn.withBadValue (forbidden (PathFn.child pathFn "securityContext" ["procMount"]))
              (BadValue.str procMount)]
         else Violations.Add st.1 container.name [],
         StringSet.insert st.2 procMount)
      else st

/-- Embedding of `procMountV1Dot0` (the variant without the
user-namespace relaxation). -/
def procMountV1Dot0 (podMetadata : ObjectMeta) (podSpec : PodSpec)
    (opts : options) : CheckResult :=
  let st := visitContainers podSpec opts (procMountVisit opts)
    (NewViolations opts.withFieldErrors, StringSet.NewString [])
  let badContainers := st.1
  let forbiddenProcMountTypes := st.2
  if !(Violations.Empty badContainers) then
    { Allowed := false
      ForbiddenReason := "procMount"
      ForbiddenDetail :=
        pluralize "container" "containers" (Violations.Len badContainers) ++ " " ++
        joinQuote (Violations.Data badContainers) ++
        " must not set securityContext.procMount to " ++
        joinQuote (StringSet.sortedList forbiddenProcMountTypes)
      ErrList := Violations.Errs badContainers }
  else { Allowed := true }

/-- Modelled from the spec: `relaxPolicyForUserNamespacePod` is not under
src/; per §3 and the relaxation scenario (§8) it holds exactly when the
process-wide user-namespace relaxation toggle is engaged and the pod
spec's namespace-relaxation field is set (`hostUsers: false`).  The
process-wide toggle is passed explicitly. -/
def relaxPolicyForUserNamespacePod (relaxPolicyForUserNamespacePods : Bool)
    (podSpec : PodSpec) : Bool :=
  relaxPolicyForUserNamespacePods && podSpec.hostUsers == some false

/-- Embedding of the relaxation-aware variant of `procMountV1Dot0`
(src/unnamed/part_003, second variant): identical to `procMountV1Dot0`
except that it short-circuits to allowed when
`relaxPolicyForUserNamespacePod(podSpec)` holds.  The process-wide
toggle is an explicit parameter, and the variant's pre-`PathFn` visitor
signature (`path *field.Path` with the free `withBadValue`) is embedded
against the `PathFn` form of `visitContainers`, which produces the same
deferred error. -/
def procMountV1Dot0Relaxed (relaxPolicyForUserNamespacePods : Bool)
    (podMetadata : ObjectMeta) (podSpec : PodSpec) (opts : options) : CheckResult :=
  if relaxPolicyForUserNamespacePod relaxPolicyForUserNamespacePods podSpec then
    { Allowed := true }
  else
    let st := visitContainers podSpec opts (procMountVisit opts)
      (NewViolations opts.withFieldErrors, StringSet.NewString [])
    let badContainers := st.1
    let forbiddenProcMountTypes := st.2
    if !(Violations.Empty badContainers) then
      { Allowed := false
        ForbiddenReason := "procMount"
        ForbiddenDetail :=
          pluralize "container" "containers" (Violations.Len badContainers) ++ " " ++
          joinQuote (Violations.Data badContainers) ++
          " must not set securityContext.procMount to " ++
          joinQuote (StringSet.sortedList forbiddenProcMountTypes)
        ErrList := Violations.Errs badContainers }
    else { Allowed := true }

/-! ## Check: hostPorts (src/policy/check_hostPorts.go) -/

/-- Visitor closure of `hostPortsV1Dot0`: the inner loop over the
container's ports accumulates `(valid, errFns, forbiddenHostPorts)`, then
the container is recorded if any port was bad. -/
def hostPortsVisit (opts : options) (container : Container) (pathFn : PathFn)
    (st : Violations × StringSet) : Violations × StringSet :=
  let inner := container.ports.enum.foldl
    (fun (acc : Bool × List ErrFn × StringSet) ic =>
      if ic.2.hostPort != 0 then
        (false,
         (if opts.withFieldErrors then
            acc.2.1 ++
              [ErrFn.withBadValue
                (forbidden (PathFn.child (PathFn.index (PathFn.child pathFn "ports" []) ic.1) "hostPort" []))
                (BadValue.int ic.2.hostPort)]
          else acc.2.1),
         StringSet.insert acc.2.2 (toString ic.2.hostPort))
      else acc)
    (true, [], st.2)
  if !inner.1 then
    (if opts.withFieldErrors then Violations.Add st.1 container.name inner.2.1
     else Violations.Add st.1 container.name [],
     inner.2.2)
  else (st.1, inner.2.2)

/-- Embedding of `hostPortsV1Dot0`. -/
def hostPortsV1Dot0 (podMetadata : ObjectMeta) (podSpec : PodSpec)
    (opts : options) : CheckResult :=
  let st := visitContainers podSpec opts (hostPortsVisit opts)
    (NewViolations opts.withFieldErrors, StringSet.NewString [])
  let badContainers := st.1
  let forbiddenHostPorts := st.2
  if !(Violations.Empty badContainers) then
    { Allowed := false
      ForbiddenReason := "hostPort"
      ForbiddenDetail :=
        pluralize "container" "containers" (Violations.Len badContainers) ++ " " ++
        joinQuote (Violations.Data badContainers) ++ " " ++
        pluralize "uses" "use" (Violations.Len badContainers) ++ " " ++
        pluralize "hostPort" "hostPorts" forbiddenHostPorts.length ++ " " ++
        String.intercalate ", " (StringSet.sortedList forbiddenHostPorts)
      ErrList := Violations.Errs badContainers }
  else { Allowed := true }

/-! ## Check: privileged (src/policy/check_privileged.go) -/

/-- Visitor closure of `privilegedV1Dot0`.  The source snapshot of this
check predates the `PathFn` API (its visitor takes `path *field.Path`
and calls the free function `withBadValue(forbidden(path.Child(...)),
true)`); it is embedded against the `PathFn` form of `visitContainers`
(src/unnamed/part_000), which produces the same deferred error. -/
def privilegedVisit (opts : options) (container : Container) (pathFn : PathFn)
    (badContainers : Violations) : Violations :=
  match container.securityContext with
  | none => badContainers
  | some sc =>
    match sc.privileged with
    | none => badContainers
    | some privileged =>
      if privileged then
        if opts.withFieldErrors then
          Violations.Add badContainers container.name
            [ErrFn.withBadValue (forbidden (PathFn.child pathFn "securityContext" ["privileged"]))
              (BadValue.bool true)]
        else Violations.Add badContainers container.name []
      else badContainers

/-- Embedding of `privilegedV1Dot0`. -/
def privilegedV1Dot0 (podMetadata : ObjectMeta) (podSpec : PodSpec)
    (opts : options) : CheckResult :=
  let badContainers := visitContainers podSpec opts (privilegedVisit opts)
    (NewViolations opts.withFieldErrors)
  if !(Violations.Empty badContainers) then
    { Allowed := false
      ForbiddenReason := "privileged"
      ForbiddenDetail :=
        pluralize "container" "containers" (Violations.Len badContainers) ++ " " ++
        joinQuote (Violations.Data badContainers) ++
        " must not set securityContext.privileged=true"
      ErrList := Violations.Errs badContainers }
  else { Allowed := true }

/-! ## Check: seLinuxOptions (src/policy/check_seLinuxOptions.go) -/

/-- Embedding of `selinux_allowed_types_1_0`. -/
def selinux_allowed_types_1_0 : StringSet :=
  StringSet.NewString ["", "container_t", "container_init_t", "container_kvm_t"]

/-- State captured by reference in `seLinuxOptionsV1Dot0`'s
`validSELinuxOptions` closure, passed explicitly. -/
structure SELAcc where
  badSetters : Violations
  badContainersErrFns : List ErrFn
  badPodErrFns : List ErrFn
  badTypes : StringSet
  setUser : Bool
  setRole : Bool

/-- Block of `validSELinuxOptions` handling `selinuxOpts.Type`. -/
def selTypeBlock (opts : options) (selinuxOpts : SELinuxOptions) (pathFn : PathFn)
    (isPodLevel : Bool) (acc : SELAcc) : Bool × SELAcc :=
  if !(StringSet.Has selinux_allowed_types_1_0 selinuxOpts.type_) then
    let acc := { acc with badTypes := StringSet.insert acc.badTypes selinuxOpts.type_ }
    let acc :=
      match pathFn with
      | some _ =>
        { acc with badContainersErrFns := acc.badContainersErrFns ++
            [ErrFn.withBadValue
              (forbidden (PathFn.child pathFn "securityContext" ["seLinuxOptions", "type"]))
              (BadValue.str selinuxOpts.type_)] }
      | none =>
        if isPodLevel && opts.withFieldErrors then
          { acc with badPodErrFns := acc.badPodErrFns ++
              [ErrFn.withBadValue (forbidden seLinuxOptionsTypePath) (BadValue.str selinuxOpts.type_)] }
        else acc
    (false, acc)
  else (true, acc)

/-- Block of `validSELinuxOptions` handling `selinuxOpts.User`. -/
def selUserBlock (opts : options) (selinuxOpts : SELinuxOptions) (pathFn : PathFn)
    (isPodLevel : Bool) (acc : SELAcc) : Bool × SELAcc :=
  if selinuxOpts.user.length > 0 then
    let acc := { acc with setUser := true }
    let acc :=
      match pathFn with
      | some _ =>
        { acc with badContainersErrFns := acc.badContainersErrFns ++
            [ErrFn.withBadValue
              (forbidden (PathFn.child pathFn "securityContext" ["seLinuxOptions", "user"]))
              (BadValue.str selinuxOpts.user)] }
      | none =>
        if isPodLevel && opts.withFieldErrors then
          { acc with badPodErrFns := acc.badPodErrFns ++
              [ErrFn.withBadValue (forbidden seLinuxOptionsUserPath) (BadValue.str selinuxOpts.user)] }
        else acc
    (false, acc)
  else (true, acc)

/-- Block of `validSELinuxOptions` handling `selinuxOpts.Role`. -/
def selRoleBlock (opts : options) (selinuxOpts : SELinuxOptions) (pathFn : PathFn)
    (isPodLevel : Bool) (acc : SELAcc) : Bool × SELAcc :=
  if selinuxOpts.role.length > 0 then
    let acc := { acc with setRole := true }
    let acc :=
      match pathFn with
      | some _ =>
        { acc with badContainersErrFns := acc.badContainersErrFns ++
            [ErrFn.withBadValue
              (forbidden (PathFn.child pathFn "securityContext" ["seLinuxOptions", "role"]))
              (BadValue.str selinuxOpts.role)] }
      | none =>
        if isPodLevel && opts.withFieldErrors then
          { acc with badPodErrFns := acc.badPodErrFns ++
              [ErrFn.withBadValue (forbidden seLinuxOptionsRolePath) (BadValue.str selinuxOpts.role)] }
        else acc
    (false, acc)
  else (true, acc)

/-- Embedding of the `validSELinuxOptions` closure: runs the three field
blocks in order and reports whether all were valid. -/
def validSELinuxOptions (opts : options) (selinuxOpts : SELinuxOptions) (pathFn : PathFn)
    (isPodLevel : Bool) (acc : SELAcc) : Bool × SELAcc :=
  let r1 := selTypeBlock opts selinuxOpts pathFn isPodLevel acc
  let r2 := selUserBlock opts selinuxOpts pathFn isPodLevel r1.2
  let r3 := selRoleBlock opts selinuxOpts pathFn isPodLevel r2.2
  (r1.1 && r2.1 && r3.1, r3.2)

/-- Visitor closure of `seLinuxOptionsV1Dot0`, with the captured
`validSELinuxOptions` state and `badContainers` list passed explicitly. -/
def seLinuxVisit (opts : options) (container : Container) (pathFn : PathFn)
    (st : SELAcc × List String) : SELAcc × List String :=
  match container.securityContext with
  | none => st
  | some sc =>
    match sc.seLinuxOptions with
    | none => st
    | some selinuxOpts =>
      let r := validSELinuxOptions opts selinuxOpts pathFn false st.1
      if !r.1 then (r.2, st.2 ++ [container.name]) else (r.2, st.2)

/-- Initial accumulator state of `seLinuxOptionsV1Dot0` (the zero
values of the closure-captured locals). -/
def seLinuxAcc0 (opts : options) : SELAcc :=
  { badSetters := NewViolations opts.withFieldErrors
    badContainersErrFns := []
    badPodErrFns := []
    badTypes := StringSet.NewString []
    setUser := false
    setRole := false }

/-- Pod-level stage of `seLinuxOptionsV1Dot0`: validates
`podSpec.securityContext.seLinuxOptions` and records "pod" as a bad
setter on failure. -/
def seLinuxPodLevel (opts : options) (podSpec : PodSpec) (acc0 : SELAcc) : SELAcc :=
  match podSpec.securityContext with
  | none => acc0
  | some psc =>
    match psc.seLinuxOptions with
    | none => acc0
    | some selinuxOpts =>
      let r := validSELinuxOptions opts selinuxOpts none true acc0
      if !r.1 then
        { r.2 with badSetters := Violations.Add r.2.badSetters "pod" r.2.badPodErrFns }
      else r.2

/-- Final aggregation stage of `seLinuxOptionsV1Dot0`: records the bad
containers (if any) as one summarized setter with their error
functions. -/
def seLinuxSummarize (acc : SELAcc) (badContainers : List String) : SELAcc :=
  if badContainers.length > 0 then
    let label :=
      pluralize "container" "containers" badContainers.length ++ " " ++ joinQuote badContainers
    { acc with badSetters := Violations.Add acc.badSetters label acc.badContainersErrFns }
  else acc

/-- Embedding of `seLinuxOptionsV1Dot0`. -/
def seLinuxOptionsV1Dot0 (podMetadata : ObjectMeta) (podSpec : PodSpec)
    (opts : options) : CheckResult :=
  let acc1 := seLinuxPodLevel opts podSpec (seLinuxAcc0 opts)
  let st := visitContainers podSpec opts (seLinuxVisit opts) (acc1, [])
  let acc := seLinuxSummarize st.1 st.2
  if !(Violations.Empty acc.badSetters) then
    let badData : List String :=
      (if acc.badTypes.length > 0 then
        [pluralize "type" "types" acc.badTypes.length ++ " " ++
          joinQuote (StringSet.sortedList acc.badTypes)]
       else []) ++
      (if acc.setUser then ["user may not be set"] else []) ++
      (if acc.setRole then ["role may not be set"] else [])
    { Allowed := false
      ForbiddenReason := "seLinuxOptions"
      ForbiddenDetail :=
        String.intercalate " and " (Violations.Data acc.badSetters) ++
        " set forbidden securityContext.seLinuxOptions: " ++
        String.intercalate "; " badData
      ErrList := Violations.Errs acc.badSetters }
  else { Allowed := true }

/-! ## Concrete fixtures (from the repository's test cases) -/

/-- Test pod of `TestProcMount`: containers "a".."e", where "d" sets
procMount "Unmasked" and "e" sets procMount "other", with
`hostUsers: false`. -/
def testPodProcMount : PodSpec :=
  { containers :=
      [ { name := "a" },
        { name := "b", securityContext := some {} },
        { name := "c", securityContext := some { procMount := some DefaultProcMount } },
        { name := "d", securityContext := some { procMount := some UnmaskedProcMount } },
        { name := "e", securityContext := some { procMount := some "other" } } ]
    hostUsers := some false }

/-- Pod whose only offending container sits at index 3 of
`spec.containers`, with procMount "Unmasked". -/
def testPodProcMountIdx3 : PodSpec :=
  { containers :=
      [ { name := "a" },
        { name := "b", securityContext := some {} },
        { name := "c", securityContext := some { procMount := some DefaultProcMount } },
        { name := "d", securityContext := some { procMount := some UnmaskedProcMount } } ] }

/-- Metadata carrying two forbidden AppArmor profile annotations, in one
map iteration order. -/
def aaMeta1 : ObjectMeta :=
  { annotations :=
      [ (appArmorBetaContainerAnnotationKeyPfx ++ "c1", "a"),
        (appArmorBetaContainerAnnotationKeyPfx ++ "c2", "b") ] }

/-- The same annotation map as `aaMeta1`, in the other iteration order. -/
def aaMeta2 : ObjectMeta :=
  { annotations :=
      [ (appArmorBetaContainerAnnotationKeyPfx ++ "c2", "b"),
        (appArmorBetaContainerAnnotationKeyPfx ++ "c1", "a") ] }

/-- Pod with one init, one regular and one ephemeral container, for
exercising the traversal order. -/
def testPodVisit : PodSpec :=
  { initContainers := [ { name := "i" } ]
    containers := [ { name := "c" } ]
    ephemeralContainers := [ { name := "e" } ] }

/-- Visitor that records the names of the containers it is invoked on. -/
def visitNames (container : Container) (pathFn : PathFn) (acc : List String) : List String :=
  acc ++ [container.name]

/-! ## Helper lemmas: folds and traversal -/

/-- A fold preserves any invariant preserved by its step function. -/
lemma foldl_pres {α β : Type _} (P : β → Prop) (f : β → α → β)
    (hf : ∀ b a, P b → P (f b a)) :
    ∀ (l : List α) (b : β), P b → P (l.foldl f b) := by
  intro l
  induction l with
  | nil => intro b hb; exact hb
  | cons x xs ih => intro b hb; exact ih _ (hf b x hb)

/-- The container traversal preserves any invariant preserved by the
visitor. -/
lemma visitContainers_pres {α : Type} (P : α → Prop) (podSpec : PodSpec) (opts : options)
    (visitor : Container → PathFn → α → α)
    (hv : ∀ c pf a, P a → P (visitor c pf a)) (a0 : α) (h0 : P a0) :
    P (visitContainers podSpec opts visitor a0) := by
  unfold visitContainers
  apply foldl_pres P _ (fun b x hb => hv _ _ _ hb)
  apply foldl_pres P _ (fun b x hb => hv _ _ _ hb)
  apply foldl_pres P _ (fun b x hb => hv _ _ _ hb)
  exact h0

/-- `visitContainers` is exactly one visitor invocation per element of
`visitSeq`, in order. -/
lemma visitContainers_eq_foldl {α : Type} (podSpec : PodSpec) (opts : options)
    (visitor : Container → PathFn → α → α) (a0 : α) :
    visitContainers podSpec opts visitor a0 =
      (visitSeq podSpec opts).foldl (fun acc cp => visitor cp.1 cp.2 acc) a0 := by
  simp only [visitContainers, visitSeq, List.foldl_append, List.foldl_map]

/-! ## Helper lemmas: Violations -/

lemma NewViolations_data (b : Bool) : (NewViolations b).data = [] := by
  unfold NewViolations; split <;> rfl

lemma NewViolations_wfe (b : Bool) : (NewViolations b).withFieldErrors = b := by
  unfold NewViolations; split <;> rfl

lemma NewViolations_errs_false : (NewViolations false).errs = none := rfl

lemma NewViolations_errs_true : (NewViolations true).errs = some [] := rfl

lemma Violations_Add_wfe (v : Violations) (s : String) (fns : List ErrFn) :
    (Violations.Add v s fns).withFieldErrors = v.withFieldErrors := by
  unfold Violations.Add
  dsimp only
  split
  · apply foldl_pres (fun (w : Violations) => w.withFieldErrors = v.withFieldErrors) _ ?_ fns
      { v with data := v.data ++ [s] } rfl
    intro w fn hw
    cases fn with
    | none => exact hw
    | some g => cases hg : g () <;> simp only [hg] <;> exact hw
  · rfl

lemma Violations_Add_data (v : Violations) (s : String) (fns : List ErrFn) :
    (Violations.Add v s fns).data = v.data ++ [s] := by
  unfold Violations.Add
  dsimp only
  split
  · apply foldl_pres (fun (w : Violations) => w.data = v.data ++ [s]) _ ?_ fns
      { v with data := v.data ++ [s] } rfl
    intro w fn hw
    cases fn with
    | none => exact hw
    | some g => cases hg : g () <;> simp only [hg] <;> exact hw
  · rfl

lemma Violations_Add_errs_of_false (v : Violations) (s : String) (fns : List ErrFn)
    (h : v.withFieldErrors = false) :
    (Violations.Add v s fns).errs = v.errs := by
  unfold Violations.Add
  dsimp only
  split
  · next hw => rw [show ({ v with data := v.data ++ [s] } : Violations).withFieldErrors = v.withFieldErrors from rfl, h] at hw; cases hw
  · rfl

lemma Violations_Add_errs_single (v : Violations) (s : String)
    (g : Unit → Option FieldError) (e : FieldError) (hg : g () = some e)
    (hw : v.withFieldErrors = true) :
    (Violations.Add v s [some g]).errs = v.errs.map (fun es => es ++ [e]) := by
  unfold Violations.Add
  rw [if_pos (show ({ v with data := v.data ++ [s] } : Violations).withFieldErrors = true from hw)]
  simp only [List.foldl_cons, List.foldl_nil, hg]

/-! ## Helper lemmas: the lexicographic string sort -/

lemma char_toNat_inj {c d : Char} (h : c.toNat = d.toNat) : c = d := by
  apply Char.ext
  apply UInt32.ext
  exact h

lemma strLe_total : ∀ a b : List Char, strLe a b = true ∨ strLe b a = true := by
  intro a
  induction a with
  | nil => intro b; left; rfl
  | cons c cs ih =>
    intro b
    cases b with
    | nil => right; rfl
    | cons d ds =>
      by_cases h1 : c.toNat < d.toNat
      · left; simp [strLe, h1]
      · by_cases h2 : d.toNat < c.toNat
        · right; simp [strLe, h2]
        · have hcd : c = d :=
            char_toNat_inj (Nat.le_antisymm (Nat.le_of_not_lt h2) (Nat.le_of_not_lt h1))
          subst hcd
          rcases ih ds with h | h
          · left; simp [strLe, h]
          · right; simp [strLe, h]

lemma strLe_trans : ∀ a b c : List Char,
    strLe a b = true → strLe b c = true → strLe a c = true := by
  intro a
  induction a with
  | nil => intro b c _ _; rfl
  | cons x xs ih =>
    intro b c hab hbc
    cases b with
    | nil => simp [strLe] at hab
    | cons y ys =>
      cases c with
      | nil => simp [strLe] at hbc
      | cons z zs =>
        simp only [strLe, Bool.or_eq_true, Bool.and_eq_true, decide_eq_true_eq,
          beq_iff_eq] at hab hbc ⊢
        rcases hab with h1 | ⟨he1, h1⟩
        · rcases hbc with h2 | ⟨he2, h2⟩
          · left; omega
          · subst he2; left; exact h1
        · subst he1
          rcases hbc with h2 | ⟨he2, h2⟩
          · left; exact h2
          · subst he2; right; exact ⟨rfl, ih ys zs h1 h2⟩

lemma strLe_antisymm : ∀ a b : List Char,
    strLe a b = true → strLe b a = true → a = b := by
  intro a
  induction a with
  | nil =>
    intro b _ hba
    cases b with
    | nil => rfl
    | cons d ds => simp [strLe] at hba
  | cons c cs ih =>
    intro b hab hba
    cases b with
    | nil => simp [strLe] at hab
    | cons d ds =>
      simp only [strLe, Bool.or_eq_true, Bool.and_eq_true, decide_eq_true_eq,
        beq_iff_eq] at hab hba
      rcases hab with h1 | ⟨he1, h1⟩
      · rcases hba with h2 | ⟨he2, h2⟩
        · omega
        · subst he2; omega
      · subst he1
        rcases hba with h2 | ⟨_, h2⟩
        · omega
        · rw [ih ds h1 h2]

/-- Sorting is a permutation (embedding of the fact that `sort.Strings`
reorders its input). -/
lemma sortStrings_perm (l : List String) : (sortStrings l).Perm l :=
  List.perm_insertionSort _ l

/-- Two permuted string lists sort to the same list: the sorted output
is independent of input order. -/
lemma sortStrings_eq_of_perm {l1 l2 : List String} (h : l1.Perm l2) :
    sortStrings l1 = sortStrings l2 := by
  haveI : IsTotal String (fun a b => strLe a.data b.data = true) :=
    ⟨fun a b => strLe_total a.data b.data⟩
  haveI : IsTrans String (fun a b => strLe a.data b.data = true) :=
    ⟨fun a b c hab hbc => strLe_trans a.data b.data c.data hab hbc⟩
  haveI : IsAntisymm String (fun a b => strLe a.data b.data = true) :=
    ⟨fun a b hab hba => String.ext (strLe_antisymm a.data b.data hab hba)⟩
  exact List.eq_of_perm_of_sorted
    ((sortStrings_perm l1).trans (h.trans (sortStrings_perm l2).symm))
    (List.sorted_insertionSort _ l1)
    (List.sorted_insertionSort _ l2)

/-! ## Helper lemmas: the appArmorProfile annotation fold -/

lemma appArmorVisit_wfe (opts : options) (l : List (String × String)) (v : Violations) :
    (l.foldl (appArmorVisitAnno opts) v).withFieldErrors = v.withFieldErrors := by
  apply foldl_pres (fun (w : Violations) => w.withFieldErrors = v.withFieldErrors) _ ?_ l v rfl
  intro w kv hw
  unfold appArmorVisitAnno
  split
  · split <;> rw [Violations_Add_wfe] <;> exact hw
  · exact hw

lemma appArmorVisit_data (opts : options) :
    ∀ (l : List (String × String)) (v : Violations),
      (l.foldl (appArmorVisitAnno opts) v).data = v.data ++ l.filterMap appArmorLabelOf := by
  intro l
  induction l with
  | nil => intro v; simp
  | cons kv rest ih =>
    intro v
    rw [List.foldl_cons, ih]
    by_cases hc : (strHasPfx kv.1 appArmorBetaContainerAnnotationKeyPfx && !allowedProfile kv.2) = true
    · have hd : (appArmorVisitAnno opts v kv).data = v.data ++ [kv.1 ++ "=" ++ quoteStr kv.2] := by
        unfold appArmorVisitAnno
        rw [if_pos hc]
        split <;> rw [Violations_Add_data]
      rw [hd]
      simp [List.filterMap_cons, appArmorLabelOf, hc]
    · have hd : appArmorVisitAnno opts v kv = v := by
        unfold appArmorVisitAnno
        rw [if_neg hc]
      rw [hd]
      simp [List.filterMap_cons, appArmorLabelOf, hc]

lemma appArmorVisit_errs_false (opts : options) (l : List (String × String)) (v : Violations)
    (hw : v.withFieldErrors = false) (hv : v.errs = none) :
    (l.foldl (appArmorVisitAnno opts) v).errs = none := by
  have h := foldl_pres
    (fun (w : Violations) => w.withFieldErrors = false ∧ w.errs = none)
    (appArmorVisitAnno opts) ?_ l v ⟨hw, hv⟩
  · exact h.2
  · intro w kv hw'
    unfold appArmorVisitAnno
    split
    · split <;>
        exact ⟨by rw [Violations_Add_wfe]; exact hw'.1,
               by rw [Violations_Add_errs_of_false _ _ _ hw'.1]; exact hw'.2⟩
    · exact hw'

lemma aa_errfn_eval (kv : String × String) :
    ErrFn.withBadValue (forbidden (PathFn.key annotationsPath kv.1)) (BadValue.str kv.2) =
      some (fun _ => some (appArmorErrVal kv)) := rfl

lemma appArmorVisit_errs_true (opts : options) (ho : opts.withFieldErrors = true) :
    ∀ (l : List (String × String)) (v : Violations) (es : List FieldError),
      v.withFieldErrors = true → v.errs = some es →
      (l.foldl (appArmorVisitAnno opts) v).errs = some (es ++ l.filterMap appArmorErrOf) := by
  intro l
  induction l with
  | nil => intro v es _ hv; simpa using hv
  | cons kv rest ih =>
    intro v es hw hv
    rw [List.foldl_cons]
    by_cases hc : (strHasPfx kv.1 appArmorBetaContainerAnnotationKeyPfx && !allowedProfile kv.2) = true
    · have hx : appArmorVisitAnno opts v kv =
          Violations.Add v (kv.1 ++ "=" ++ quoteStr kv.2) [some (fun _ => some (appArmorErrVal kv))] := by
        unfold appArmorVisitAnno
        rw [if_pos hc, if_pos ho, aa_errfn_eval]
      rw [hx]
      have herrs := Violations_Add_errs_single v (kv.1 ++ "=" ++ quoteStr kv.2)
        (fun _ => some (appArmorErrVal kv)) (appArmorErrVal kv) rfl hw
      rw [ih _ (es ++ [appArmorErrVal kv]) (by rw [Violations_Add_wfe]; exact hw)
        (by rw [herrs, hv]; rfl)]
      rw [List.filterMap_cons]
      have hval : appArmorErrOf kv = some (appArmorErrVal kv) := by
        unfold appArmorErrOf
        rw [if_pos hc]
      rw [hval]
      simp
    · have hx : appArmorVisitAnno opts v kv = v := by
        unfold appArmorVisitAnno
        rw [if_neg hc]
      rw [hx, ih _ _ hw hv, List.filterMap_cons]
      have hval : appArmorErrOf kv = none := by
        unfold appArmorErrOf
        rw [if_neg hc]
      rw [hval]

/-- Closed-form evaluation of `appArmorProfileV1Dot0` in terms of the
per-entry label and error functions. -/
lemma appArmor_eval (m : ObjectMeta) (s : PodSpec) (o : options) :
    appArmorProfileV1Dot0 m s o =
      if !((m.annotations.filterMap appArmorLabelOf).length == 0) then
        { Allowed := false
          ForbiddenReason := pluralize "forbidden AppArmor profile" "forbidden AppArmor profiles"
            (sortStrings (m.annotations.filterMap appArmorLabelOf)).length
          ForbiddenDetail := String.intercalate ", " (sortStrings (m.annotations.filterMap appArmorLabelOf))
          ErrList := if o.withFieldErrors then some (m.annotations.filterMap appArmorErrOf) else none }
      else { Allowed := true } := by
  have hdata : (m.annotations.foldl (appArmorVisitAnno o) (NewViolations o.withFieldErrors)).data
      = m.annotations.filterMap appArmorLabelOf := by
    rw [appArmorVisit_data, NewViolations_data, List.nil_append]
  have herrs : (m.annotations.foldl (appArmorVisitAnno o) (NewViolations o.withFieldErrors)).errs
      = if o.withFieldErrors then some (m.annotations.filterMap appArmorErrOf) else none := by
    cases ho : o.withFieldErrors with
    | false =>
      simp only [ho, Bool.false_eq_true, if_false]
      exact appArmorVisit_errs_false o _ _ (NewViolations_wfe false) NewViolations_errs_false
    | true =>
      simp only [ho, if_true]
      rw [appArmorVisit_errs_true o ho _ _ [] (NewViolations_wfe true) NewViolations_errs_true,
        List.nil_append]
  unfold appArmorProfileV1Dot0
  dsimp only
  simp only [Violations.Empty, Violations.Data, Violations.Errs]
  rw [hdata, herrs]

/-! ## Helper lemmas: ErrList is nil when field errors are off -/

lemma procMountVisit_pres (o : options) (c : Container) (pf : PathFn)
    (st : Violations × StringSet)
    (hst : st.1.withFieldErrors = false ∧ st.1.errs = none) :
    (procMountVisit o c pf st).1.withFieldErrors = false ∧
      (procMountVisit o c pf st).1.errs = none := by
  unfold procMountVisit
  split
  · exact hst
  · split
    · exact hst
    · split
      · refine ⟨?_, ?_⟩
        · dsimp only
          split <;> rw [Violations_Add_wfe] <;> exact hst.1
        · dsimp only
          split <;> rw [Violations_Add_errs_of_false _ _ _ hst.1] <;> exact hst.2
      · exact hst

lemma hostPortsVisit_pres (o : options) (c : Container) (pf : PathFn)
    (st : Violations × StringSet)
    (hst : st.1.withFieldErrors = false ∧ st.1.errs = none) :
    (hostPortsVisit o c pf st).1.withFieldErrors = false ∧
      (hostPortsVisit o c pf st).1.errs = none := by
  unfold hostPortsVisit
  dsimp only
  constructor <;> (split <;> split) <;>
    simp only [Violations_Add_wfe, Violations_Add_errs_of_false _ _ _ hst.1, hst.1, hst.2]

lemma privilegedVisit_pres (o : options) (c : Container) (pf : PathFn)
    (v : Violations)
    (hv : v.withFieldErrors = false ∧ v.errs = none) :
    (privilegedVisit o c pf v).withFieldErrors = false ∧
      (privilegedVisit o c pf v).errs = none := by
  unfold privilegedVisit
  split
  · exact hv
  · split
    · exact hv
    · split
      · refine ⟨?_, ?_⟩
        · split <;> rw [Violations_Add_wfe] <;> exact hv.1
        · split <;> rw [Violations_Add_errs_of_false _ _ _ hv.1] <;> exact hv.2
      · exact hv

lemma selTypeBlock_badSetters (o : options) (so : SELinuxOptions) (pf : PathFn)
    (ipl : Bool) (acc : SELAcc) :
    (selTypeBlock o so pf ipl acc).2.badSetters = acc.badSetters := by
  unfold selTypeBlock
  split
  · dsimp only
    split
    · rfl
    · split <;> rfl
  · rfl

lemma selUserBlock_badSetters (o : options) (so : SELinuxOptions) (pf : PathFn)
    (ipl : Bool) (acc : SELAcc) :
    (selUserBlock o so pf ipl acc).2.badSetters = acc.badSetters := by
  unfold selUserBlock
  split
  · dsimp only
    split
    · rfl
    · split <;> rfl
  · rfl

lemma selRoleBlock_badSetters (o : options) (so : SELinuxOptions) (pf : PathFn)
    (ipl : Bool) (acc : SELAcc) :
    (selRoleBlock o so pf ipl acc).2.badSetters = acc.badSetters := by
  unfold selRoleBlock
  split
  · dsimp only
    split
    · rfl
    · split <;> rfl
  · rfl

lemma validSELinuxOptions_badSetters (o : options) (so : SELinuxOptions) (pf : PathFn)
    (ipl : Bool) (acc : SELAcc) :
    (validSELinuxOptions o so pf ipl acc).2.badSetters = acc.badSetters := by
  unfold validSELinuxOptions
  dsimp only
  rw [selRoleBlock_badSetters, selUserBlock_badSetters, selTypeBlock_badSetters]

lemma seLinuxVisit_pres (o : options) (c : Container) (pf : PathFn)
    (st : SELAcc × List String)
    (hst : st.1.badSetters.withFieldErrors = false ∧ st.1.badSetters.errs = none) :
    (seLinuxVisit o c pf st).1.badSetters.withFieldErrors = false ∧
      (seLinuxVisit o c pf st).1.badSetters.errs = none := by
  unfold seLinuxVisit
  split
  · exact hst
  · split
    · exact hst
    · dsimp only
      split <;> dsimp only <;> rw [validSELinuxOptions_badSetters] <;> exact hst

lemma seLinuxPodLevel_pres (o : options) (s : PodSpec) (acc : SELAcc)
    (h : acc.badSetters.withFieldErrors = false ∧ acc.badSetters.errs = none) :
    (seLinuxPodLevel o s acc).badSetters.withFieldErrors = false ∧
      (seLinuxPodLevel o s acc).badSetters.errs = none := by
  unfold seLinuxPodLevel
  split
  · exact h
  · split
    · exact h
    · dsimp only
      split
      · refine ⟨?_, ?_⟩
        · rw [Violations_Add_wfe, validSELinuxOptions_badSetters]
          exact h.1
        · rw [Violations_Add_errs_of_false _ _ _
            (by rw [validSELinuxOptions_badSetters]; exact h.1)]
          rw [validSELinuxOptions_badSetters]
          exact h.2
      · refine ⟨?_, ?_⟩
        · rw [validSELinuxOptions_badSetters]; exact h.1
        · rw [validSELinuxOptions_badSetters]; exact h.2

lemma seLinuxSummarize_pres (acc : SELAcc) (bc : List String)
    (h : acc.badSetters.withFieldErrors = false ∧ acc.badSetters.errs = none) :
    (seLinuxSummarize acc bc).badSetters.withFieldErrors = false ∧
      (seLinuxSummarize acc bc).badSetters.errs = none := by
  unfold seLinuxSummarize
  split
  · dsimp only
    refine ⟨?_, ?_⟩
    · rw [Violations_Add_wfe]; exact h.1
    · rw [Violations_Add_errs_of_false _ _ _ h.1]; exact h.2
  · exact h

lemma procMount_errlist_none (m : ObjectMeta) (s : PodSpec) (o : options)
    (ho : o.withFieldErrors = false) : (procMountV1Dot0 m s o).ErrList = none := by
  have h := visitContainers_pres
    (fun (st : Violations × StringSet) => st.1.withFieldErrors = false ∧ st.1.errs = none)
    s o (procMountVisit o) (procMountVisit_pres o)
    (NewViolations o.withFieldErrors, StringSet.NewString [])
    ⟨by simp only [NewViolations_wfe]; exact ho,
     by simp only [ho]; exact NewViolations_errs_false⟩
  unfold procMountV1Dot0
  dsimp only
  split
  · exact h.2
  · rfl

lemma hostPorts_errlist_none (m : ObjectMeta) (s : PodSpec) (o : options)
    (ho : o.withFieldErrors = false) : (hostPortsV1Dot0 m s o).ErrList = none := by
  have h := visitContainers_pres
    (fun (st : Violations × StringSet) => st.1.withFieldErrors = false ∧ st.1.errs = none)
    s o (hostPortsVisit o) (hostPortsVisit_pres o)
    (NewViolations o.withFieldErrors, StringSet.NewString [])
    ⟨by simp only [NewViolations_wfe]; exact ho,
     by simp only [ho]; exact NewViolations_errs_false⟩
  unfold hostPortsV1Dot0
  dsimp only
  split
  · exact h.2
  · rfl

lemma privileged_errlist_none (m : ObjectMeta) (s : PodSpec) (o : options)
    (ho : o.withFieldErrors = false) : (privilegedV1Dot0 m s o).ErrList = none := by
  have h := visitContainers_pres
    (fun (v : Violations) => v.withFieldErrors = false ∧ v.errs = none)
    s o (privilegedVisit o) (privilegedVisit_pres o)
    (NewViolations o.withFieldErrors)
    ⟨by simp only [NewViolations_wfe]; exact ho,
     by simp only [ho]; exact NewViolations_errs_false⟩
  unfold privilegedV1Dot0
  dsimp only
  split
  · exact h.2
  · rfl

lemma appArmor_errlist_none (m : ObjectMeta) (s : PodSpec) (o : options)
    (ho : o.withFieldErrors = false) : (appArmorProfileV1Dot0 m s o).ErrList = none := by
  rw [appArmor_eval]
  split
  · simp [ho]
  · rfl

lemma seLinux_errlist_none (m : ObjectMeta) (s : PodSpec) (o : options)
    (ho : o.withFieldErrors = false) : (seLinuxOptionsV1Dot0 m s o).ErrList = none := by
  have h0 : (seLinuxAcc0 o).badSetters.withFieldErrors = false ∧
      (seLinuxAcc0 o).badSetters.errs = none :=
    ⟨by simp only [seLinuxAcc0, NewViolations_wfe]; exact ho,
     by simp only [seLinuxAcc0, ho]; exact NewViolations_errs_false⟩
  have h1 := seLinuxPodLevel_pres o s _ h0
  have h2 := visitContainers_pres
    (fun (st : SELAcc × List String) =>
      st.1.badSetters.withFieldErrors = false ∧ st.1.badSetters.errs = none)
    s o (seLinuxVisit o) (seLinuxVisit_pres o)
    (seLinuxPodLevel o s (seLinuxAcc0 o), [])
    ⟨h1.1, h1.2⟩
  have h3 := seLinuxSummarize_pres
    (visitContainers s o (seLinuxVisit o) (seLinuxPodLevel o s (seLinuxAcc0 o), [])).1
    (visitContainers s o (seLinuxVisit o) (seLinuxPodLevel o s (seLinuxAcc0 o), [])).2
    h2
  unfold seLinuxOptionsV1Dot0
  dsimp only
  split
  · exact h3.2
  · rfl

lemma violations_fold_errs_none (adds : List (String × List ErrFn)) :
    Violations.Errs (adds.foldl (fun v p => Violations.Add v p.1 p.2) (NewViolations false)) = none := by
  have h := foldl_pres
    (fun (v : Violations) => v.withFieldErrors = false ∧ v.errs = none)
    (fun v p => Violations.Add v p.1 p.2) ?_ adds (NewViolations false)
    ⟨NewViolations_wfe false, NewViolations_errs_false⟩
  · exact h.2
  · intro v p hv
    exact ⟨by rw [Violations_Add_wfe]; exact hv.1,
           by rw [Violations_Add_errs_of_false _ _ _ hv.1]; exact hv.2⟩

/-! ## Claims -/

/-- C1: Zero-cost-off invariant: a `Violations` accumulator constructed
with `NewViolations false` has `Errs() = none` after any sequence of
`Add` calls with any error functions, and for every check evaluation
with `withFieldErrors = false` the returned `ErrList` is `none`. -/
theorem C1_zero_cost_off :
    (∀ adds : List (String × List ErrFn),
      Violations.Errs (adds.foldl (fun v p => Violations.Add v p.1 p.2) (NewViolations false)) = none) ∧
    (∀ (m : ObjectMeta) (s : PodSpec) (o : options), o.withFieldErrors = false →
      (procMountV1Dot0 m s o).ErrList = none ∧
      (hostPortsV1Dot0 m s o).ErrList = none ∧
      (privilegedV1Dot0 m s o).ErrList = none ∧
      (appArmorProfileV1Dot0 m s o).ErrList = none ∧
      (seLinuxOptionsV1Dot0 m s o).ErrList = none) :=
  ⟨violations_fold_errs_none,
   fun m s o ho =>
     ⟨procMount_errlist_none m s o ho, hostPorts_errlist_none m s o ho,
      privileged_errlist_none m s o ho, appArmor_errlist_none m s o ho,
      seLinux_errlist_none m s o ho⟩⟩

/-- Witness for C1 at a concrete pod and options. -/
theorem C1_zero_cost_off_witness :
    ({} : options).withFieldErrors = false ∧
    (procMountV1Dot0 {} testPodProcMount {}).ErrList = none := by
  have h := C1_zero_cost_off
  exact ⟨rfl, (h.2 {} testPodProcMount {} rfl).1⟩

/-- C2: for every check evaluation function and every input, if the
returned `CheckResult` has `Allowed = true` then its `ForbiddenReason`
and `ForbiddenDetail` are empty and its `ErrList` is `none`. -/
theorem C2_allowed_implies_clean :
    ∀ (m : ObjectMeta) (s : PodSpec) (o : options),
      ((procMountV1Dot0 m s o).Allowed = true →
        (procMountV1Dot0 m s o).ForbiddenReason = "" ∧
        (procMountV1Dot0 m s o).ForbiddenDetail = "" ∧
        (procMountV1Dot0 m s o).ErrList = none) ∧
      ((hostPortsV1Dot0 m s o).Allowed = true →
        (hostPortsV1Dot0 m s o).ForbiddenReason = "" ∧
        (hostPortsV1Dot0 m s o).ForbiddenDetail = "" ∧
        (hostPortsV1Dot0 m s o).ErrList = none) ∧
      ((privilegedV1Dot0 m s o).Allowed = true →
        (privilegedV1Dot0 m s o).ForbiddenReason = "" ∧
        (privilegedV1Dot0 m s o).ForbiddenDetail = "" ∧
        (privilegedV1Dot0 m s o).ErrList = none) ∧
      ((appArmorProfileV1Dot0 m s o).Allowed = true →
        (appArmorProfileV1Dot0 m s o).ForbiddenReason = "" ∧
        (appArmorProfileV1Dot0 m s o).ForbiddenDetail = "" ∧
        (appArmorProfileV1Dot0 m s o).ErrList = none) ∧
      ((seLinuxOptionsV1Dot0 m s o).Allowed = true →
        (seLinuxOptionsV1Dot0 m s o).ForbiddenReason = "" ∧
        (seLinuxOptionsV1Dot0 m s o).ForbiddenDetail = "" ∧
        (seLinuxOptionsV1Dot0 m s o).ErrList = none) := by
  intro m s o
  refine ⟨?_, ?_, ?_, ?_, ?_⟩ <;> intro ha
  · unfold procMountV1Dot0 at ha ⊢
    dsimp only at ha ⊢
    split at ha
    · exact Bool.noConfusion ha
    · rename_i hcond
      rw [if_neg hcond]
      exact ⟨rfl, rfl, rfl⟩
  · unfold hostPortsV1Dot0 at ha ⊢
    dsimp only at ha ⊢
    split at ha
    · exact Bool.noConfusion ha
    · rename_i hcond
      rw [if_neg hcond]
      exact ⟨rfl, rfl, rfl⟩
  · unfold privilegedV1Dot0 at ha ⊢
    dsimp only at ha ⊢
    split at ha
    · exact Bool.noConfusion ha
    · rename_i hcond
      rw [if_neg hcond]
      exact ⟨rfl, rfl, rfl⟩
  · unfold appArmorProfileV1Dot0 at ha ⊢
    dsimp only at ha ⊢
    split at ha
    · exact Bool.noConfusion ha
    · rename_i hcond
      rw [if_neg hcond]
      exact ⟨rfl, rfl, rfl⟩
  · unfold seLinuxOptionsV1Dot0 at ha ⊢
    dsimp only at ha ⊢
    split at ha
    · exact Bool.noConfusion ha
    · rename_i hcond
      rw [if_neg hcond]
      exact ⟨rfl, rfl, rfl⟩

/-- Witness for C2 at the empty pod, where every check allows. -/
theorem C2_allowed_implies_clean_witness :
    (procMountV1Dot0 {} {} {}).ForbiddenReason = "" ∧
    (hostPortsV1Dot0 {} {} {}).ForbiddenDetail = "" ∧
    (seLinuxOptionsV1Dot0 {} {} {}).ErrList = none := by
  have h := C2_allowed_implies_clean {} {} {}
  exact ⟨(h.1 (by decide)).1, (h.2.1 (by decide)).2.1, (h.2.2.2.2 (by decide)).2.2⟩

/-- C4: composing `child`, `index` or `key` on the nil `PathFn` yields
the nil `PathFn`; composing on a non-nil parent yields a non-nil
function that invokes the parent, returns `none` when the parent yields
`none`, and otherwise extends the parent's path by exactly the given
segment. -/
theorem C4_pathFn_short_circuit :
    (∀ (n : String) (ms : List String) (i : Nat) (k : String),
      PathFn.child none n ms = none ∧ PathFn.index none i = none ∧ PathFn.key none k = none) ∧
    (∀ (f : Unit → Option Path) (n : String) (ms : List String) (i : Nat) (k : String),
      (∃ g, PathFn.child (some f) n ms = some g ∧
        (f () = none → g () = none) ∧
        ∀ p, f () = some p → g () = some (Path.Child p n ms)) ∧
      (∃ g, PathFn.index (some f) i = some g ∧
        (f () = none → g () = none) ∧
        ∀ p, f () = some p → g () = some (Path.Index p i)) ∧
      (∃ g, PathFn.key (some f) k = some g ∧
        (f () = none → g () = none) ∧
        ∀ p, f () = some p → g () = some (Path.Key p k))) := by
  constructor
  · intro n ms i k
    exact ⟨rfl, rfl, rfl⟩
  · intro f n ms i k
    refine ⟨⟨_, rfl, ?_, ?_⟩, ⟨_, rfl, ?_, ?_⟩, ⟨_, rfl, ?_, ?_⟩⟩
    · intro hf; simp only [hf]
    · intro p hp; simp only [hp]
    · intro hf; simp only [hf]
    · intro p hp; simp only [hp]
    · intro hf; simp only [hf]
    · intro p hp; simp only [hp]

/-- Witness for C4 at concrete path functions. -/
theorem C4_pathFn_short_circuit_witness :
    PathFn.child none "containers" [] = none ∧
    ∃ g, PathFn.child (some fun _ => some (Path.NewPath "spec" [])) "containers" [] = some g ∧
      g () = some (Path.Child (Path.NewPath "spec" []) "containers" []) := by
  obtain ⟨h1, h2⟩ := C4_pathFn_short_circuit
  refine ⟨(h1 "containers" [] 0 "k").1, ?_⟩
  obtain ⟨⟨g, hg, _, hsome⟩, _, _⟩ :=
    h2 (fun _ => some (Path.NewPath "spec" [])) "containers" [] 0 "k"
  exact ⟨g, hg, hsome _ rfl⟩

/-- C5: on the pod whose containers "d" and "e" set procMount "Unmasked"
and "other", the procMount rule returns `Allowed = false` with exactly
the detail string of the test suite: container names quoted and joined
in traversal order, distinct bad values sorted lexicographically, and
the noun pluralized by offender count. -/
theorem C5_pluralize_sort_detail :
    procMountV1Dot0 {} testPodProcMount {} =
      { Allowed := false
        ForbiddenReason := "procMount"
        ForbiddenDetail :=
          "containers \"d\", \"e\" must not set securityContext.procMount to \"Unmasked\", \"other\""
        ErrList := none } := by decide

/-- C6: with `withFieldErrors = true`, a pod whose only offending
container sits at index 3 of `spec.containers` with procMount "Unmasked"
produces exactly one Forbidden error with field path
`spec.containers[3].securityContext.procMount` and bad value
"Unmasked". -/
theorem C6_structured_error_exact :
    (procMountV1Dot0 {} testPodProcMountIdx3 { withFieldErrors := true }).ErrList =
      some [ { type_ := ErrType.fieldValueForbidden
               field := "spec.containers[3].securityContext.procMount"
               badValue := BadValue.str "Unmasked"
               detail := "" } ] := by decide

/-- C7: with the user-namespace relaxation toggle engaged, the
relaxation-aware procMount rule allows every pod whose
`hostUsers` field is `false`, including pods that would otherwise fail;
with the toggle disengaged, the same failing pod is rejected with reason
"procMount" and the expected detail. -/
theorem C7_relaxation :
    (∀ (m : ObjectMeta) (s : PodSpec) (o : options), s.hostUsers = some false →
      procMountV1Dot0Relaxed true m s o = { Allowed := true }) ∧
    procMountV1Dot0Relaxed false {} testPodProcMount {} =
      { Allowed := false
        ForbiddenReason := "procMount"
        ForbiddenDetail :=
          "containers \"d\", \"e\" must not set securityContext.procMount to \"Unmasked\", \"other\""
        ErrList := none } := by
  constructor
  · intro m s o hs
    unfold procMountV1Dot0Relaxed
    simp [relaxPolicyForUserNamespacePod, hs]
  · decide

/-- Witness for C7 at the test pod, which sets `hostUsers: false` and
would fail without relaxation. -/
theorem C7_relaxation_witness :
    testPodProcMount.hostUsers = some false ∧
    procMountV1Dot0Relaxed true {} testPodProcMount {} = { Allowed := true } := by
  have h := C7_relaxation
  exact ⟨rfl, h.1 {} testPodProcMount {} rfl⟩

/-- C8: `forbidden` and `required` return the nil `ErrFn` on the nil
path function and, when invoked, return `none` if the path resolves to
`none`; `withBadValue` on the nil `ErrFn` is nil, and on a non-nil one
produces the original result with only its `badValue` replaced (in
particular the field path is unchanged). -/
theorem C8_deferred_error_constructors :
    (forbidden none = none ∧ required none = none ∧
      ∀ v : BadValue, ErrFn.withBadValue none v = none) ∧
    (∀ pf : Unit → Option Path,
      (∃ g, forbidden (some pf) = some g ∧
        (pf () = none → g () = none) ∧
        ∀ p, pf () = some p → g () = some (FieldError.Forbidden p "")) ∧
      (∃ g, required (some pf) = some g ∧
        (pf () = none → g () = none) ∧
        ∀ p, pf () = some p → g () = some (FieldError.Required p ""))) ∧
    (∀ (f : Unit → Option FieldError) (v : BadValue),
      ∃ g, ErrFn.withBadValue (some f) v = some g ∧
        (f () = none → g () = none) ∧
        ∀ e, f () = some e → g () = some { e with badValue := v }) := by
  refine ⟨⟨rfl, rfl, fun v => rfl⟩, ?_, ?_⟩
  · intro pf
    refine ⟨⟨_, rfl, ?_, ?_⟩, ⟨_, rfl, ?_, ?_⟩⟩
    · intro hf; simp only [hf]
    · intro p hp; simp only [hp]
    · intro hf; simp only [hf]
    · intro p hp; simp only [hp]
  · intro f v
    refine ⟨_, rfl, ?_, ?_⟩
    · intro hf; simp only [hf]
    · intro e he; simp only [he]

/-- Witness for C8 at concrete path and error functions. -/
theorem C8_deferred_error_constructors_witness :
    forbidden none = none ∧
    (∃ g, forbidden (some fun _ => some (Path.NewPath "spec" [])) = some g ∧
      g () = some (FieldError.Forbidden (Path.NewPath "spec" []) "")) ∧
    (∃ g, ErrFn.withBadValue
        (some fun _ => some (FieldError.Forbidden (Path.NewPath "spec" []) ""))
        (BadValue.str "v") = some g ∧
      g () = some { FieldError.Forbidden (Path.NewPath "spec" []) "" with
                      badValue := BadValue.str "v" }) := by
  obtain ⟨⟨h1, _, _⟩, h2, h3⟩ := C8_deferred_error_constructors
  refine ⟨h1, ?_, ?_⟩
  · obtain ⟨⟨g, hg, _, hsome⟩, _⟩ := h2 (fun _ => some (Path.NewPath "spec" []))
    exact ⟨g, hg, hsome _ rfl⟩
  · obtain ⟨g, hg, _, hsome⟩ :=
      h3 (fun _ => some (FieldError.Forbidden (Path.NewPath "spec" []) "")) (BadValue.str "v")
    exact ⟨g, hg, hsome _ rfl⟩

/-- C10: `visitContainers` invokes the visitor exactly once per
container — every init container in index order, then every regular
container, then every ephemeral container — and when
`withFieldErrors = false` the visitor receives the nil `PathFn` for
every container. -/
theorem C10_visit_order :
    ∀ {α : Type} (ps : PodSpec) (o : options)
      (visitor : Container → PathFn → α → α) (a0 : α),
      visitContainers ps o visitor a0 =
        (visitSeq ps o).foldl (fun acc cp => visitor cp.1 cp.2 acc) a0 ∧
      (visitSeq ps o).map Prod.fst =
        ps.initContainers ++ ps.containers ++ ps.ephemeralContainers ∧
      (o.withFieldErrors = false → ∀ cp ∈ visitSeq ps o, cp.2 = none) := by
  intro α ps o visitor a0
  refine ⟨visitContainers_eq_foldl ps o visitor a0, ?_, ?_⟩
  · simp only [visitSeq, List.map_append, List.map_map]
    simp [Function.comp_def, List.enum_map_snd]
  · intro ho cp hcp
    simp only [visitSeq, ho, Bool.false_eq_true, if_false, List.mem_append,
      List.mem_map] at hcp
    rcases hcp with (⟨ic, _, rfl⟩ | ⟨ic, _, rfl⟩) | ⟨ic, _, rfl⟩ <;> rfl

/-- Witness for C10 at a pod with one container of each kind. -/
theorem C10_visit_order_witness :
    visitContainers testPodVisit {} visitNames [] =
      (visitSeq testPodVisit {}).foldl (fun acc cp => visitNames cp.1 cp.2 acc) [] ∧
    (visitSeq testPodVisit {}).map Prod.fst =
      testPodVisit.initContainers ++ testPodVisit.containers ++ testPodVisit.ephemeralContainers ∧
    (({ name := "i" } : Container), (none : PathFn)).2 = none := by
  obtain ⟨h1, h2, h3⟩ := C10_visit_order testPodVisit {} visitNames []
  refine ⟨h1, h2, h3 rfl (({ name := "i" } : Container), (none : PathFn)) ?_⟩
  have hv : visitSeq testPodVisit {} =
      [ (({ name := "i" } : Container), (none : PathFn)),
        (({ name := "c" } : Container), (none : PathFn)),
        (({ name := "e" } : Container), (none : PathFn)) ] := rfl
  rw [hv]
  exact List.mem_cons_self _ _

set_option maxRecDepth 8000 in
/-- C3 counterexample: the two iteration orders of the same annotation
map produce different `CheckResult`s from `appArmorProfileV1Dot0` when
field errors are requested (the `ErrList` entries come out in map
iteration order), so evaluation is not byte-identical including
`ErrList` order. -/
theorem C3_determinism_counterexample :
    aaMeta1.annotations.Perm aaMeta2.annotations ∧
    appArmorProfileV1Dot0 aaMeta1 {} { withFieldErrors := true } ≠
      appArmorProfileV1Dot0 aaMeta2 {} { withFieldErrors := true } := by
  constructor
  · exact List.Perm.swap _ _ _
  · decide

/-- C3 (amended): evaluation is deterministic for identical inputs: the
container-traversal checks do not read the annotation map at all, and
`appArmorProfileV1Dot0` produces the same `Allowed`, `ForbiddenReason`
and `ForbiddenDetail` for every iteration order of the same annotation
map; only its `ErrList` may vary, and then only in entry order (contents
are equal up to permutation). -/
theorem C3_determinism_amended :
    ∀ (m1 m2 : ObjectMeta) (s : PodSpec) (o : options),
      m1.annotations.Perm m2.annotations →
      procMountV1Dot0 m1 s o = procMountV1Dot0 m2 s o ∧
      hostPortsV1Dot0 m1 s o = hostPortsV1Dot0 m2 s o ∧
      privilegedV1Dot0 m1 s o = privilegedV1Dot0 m2 s o ∧
      seLinuxOptionsV1Dot0 m1 s o = seLinuxOptionsV1Dot0 m2 s o ∧
      (appArmorProfileV1Dot0 m1 s o).Allowed = (appArmorProfileV1Dot0 m2 s o).Allowed ∧
      (appArmorProfileV1Dot0 m1 s o).ForbiddenReason =
        (appArmorProfileV1Dot0 m2 s o).ForbiddenReason ∧
      (appArmorProfileV1Dot0 m1 s o).ForbiddenDetail =
        (appArmorProfileV1Dot0 m2 s o).ForbiddenDetail ∧
      ((appArmorProfileV1Dot0 m1 s o).ErrList = none ∧
        (appArmorProfileV1Dot0 m2 s o).ErrList = none ∨
       ∃ es1 es2, (appArmorProfileV1Dot0 m1 s o).ErrList = some es1 ∧
         (appArmorProfileV1Dot0 m2 s o).ErrList = some es2 ∧ es1.Perm es2) := by
  intro m1 m2 s o hperm
  have hL : (m1.annotations.filterMap appArmorLabelOf).Perm
      (m2.annotations.filterMap appArmorLabelOf) := hperm.filterMap _
  have hlen : (m1.annotations.filterMap appArmorLabelOf).length =
      (m2.annotations.filterMap appArmorLabelOf).length := hL.length_eq
  have hsort : sortStrings (m1.annotations.filterMap appArmorLabelOf) =
      sortStrings (m2.annotations.filterMap appArmorLabelOf) := sortStrings_eq_of_perm hL
  have hE : (m1.annotations.filterMap appArmorErrOf).Perm
      (m2.annotations.filterMap appArmorErrOf) := hperm.filterMap _
  refine ⟨rfl, rfl, rfl, rfl, ?_, ?_, ?_, ?_⟩
  · rw [appArmor_eval, appArmor_eval, hlen]
    split <;> rfl
  · rw [appArmor_eval, appArmor_eval, hlen, hsort]
    split <;> rfl
  · rw [appArmor_eval, appArmor_eval, hlen, hsort]
    split <;> rfl
  · rw [appArmor_eval, appArmor_eval, hlen]
    split
    · cases ho : o.withFieldErrors with
      | false => left; constructor <;> simp [ho]
      | true =>
        right
        refine ⟨m1.annotations.filterMap appArmorErrOf,
          m2.annotations.filterMap appArmorErrOf, ?_, ?_, hE⟩
        · simp [ho]
        · simp [ho]
    · left; exact ⟨rfl, rfl⟩

/-- Witness for the amended C3 at the two iteration orders of the same
two-entry annotation map. -/
theorem C3_determinism_amended_witness :
    aaMeta1.annotations.Perm aaMeta2.annotations ∧
    (appArmorProfileV1Dot0 aaMeta1 {} {}).ForbiddenDetail =
      (appArmorProfileV1Dot0 aaMeta2 {} {}).ForbiddenDetail := by
  have h := C3_determinism_amended aaMeta1 aaMeta2 {} {} (List.Perm.swap _ _ _)
  exact ⟨List.Perm.swap _ _ _, h.2.2.2.2.2.2.1⟩

end policy
